import Mathlib

/-!
Verification of the realtime audio session samples
(`client_sample.py`, `low_level_sample_local.py`, `low_level_sample copy.py`).

The Python code is shallowly embedded: bytes are `Nat` (values < 256 by
construction), int16 samples are `Int`, Python exceptions become `Except`
errors, and Python float arithmetic in `resample_audio` is idealized as
exact rational arithmetic.
-/

namespace AoaiRealtime

/-- Python builtin `round`: round half to even (banker's rounding), on
rationals (Python computes on float; idealized here as exact). -/
def pythonRound (q : ℚ) : ℤ :=
  if q - ⌊q⌋ < 1/2 then ⌊q⌋
  else if 1/2 < q - ⌊q⌋ then ⌊q⌋ + 1
  else if Even ⌊q⌋ then ⌊q⌋ else ⌊q⌋ + 1

theorem pythonRound_nonneg (q : ℚ) (hq : 0 ≤ q) : 0 ≤ pythonRound q := by
  have hf : 0 ≤ ⌊q⌋ := Int.floor_nonneg.mpr hq
  unfold pythonRound
  split_ifs <;> omega

theorem pythonRound_zero : pythonRound 0 = 0 := by
  unfold pythonRound
  norm_num

/-- `bs[i : i+n]` slicing loop `for i in range(0, len(bs), n)`: splits a list
into consecutive chunks of `n` elements, the last possibly shorter. -/
def chunksOf {α : Type} (n : ℕ) (xs : List α) : List (List α) :=
  if h : xs.length = 0 ∨ n = 0 then []
  else xs.take n :: chunksOf n (xs.drop n)
termination_by xs.length
decreasing_by
  push_neg at h
  simp only [List.length_drop]
  omega

theorem chunksOf_nil {α : Type} (n : ℕ) : chunksOf n ([] : List α) = [] := by
  rw [chunksOf]
  simp

theorem chunksOf_cons {α : Type} (n : ℕ) (xs : List α) (hn : n ≠ 0) (hxs : xs ≠ []) :
    chunksOf n xs = xs.take n :: chunksOf n (xs.drop n) := by
  rw [chunksOf]
  rw [dif_neg]
  push_neg
  exact ⟨List.length_pos.mpr hxs |>.ne', hn⟩

theorem chunksOf_join {α : Type} (n : ℕ) (hn : n ≠ 0) (xs : List α) :
    (chunksOf n xs).flatten = xs := by
  by_cases hxs : xs = []
  · subst hxs
    rw [chunksOf_nil]
    rfl
  · rw [chunksOf_cons n xs hn hxs]
    simp only [List.flatten_cons]
    rw [chunksOf_join n hn (xs.drop n)]
    exact List.take_append_drop n xs
termination_by xs.length
decreasing_by
  simp only [List.length_drop]
  have hx : 0 < xs.length := List.length_pos.mpr hxs
  omega

theorem chunksOf_mem_length {α : Type} (n : ℕ) (hn : n ≠ 0) (xs : List α) :
    ∀ c ∈ chunksOf n xs, 0 < c.length ∧ c.length ≤ n := by
  by_cases hxs : xs = []
  · subst hxs
    rw [chunksOf_nil]
    intro c hc
    exact absurd hc (List.not_mem_nil c)
  · rw [chunksOf_cons n xs hn hxs]
    intro c hc
    rcases List.mem_cons.mp hc with h | h
    · subst h
      constructor
      · simp only [List.length_take]
        have hx : 0 < xs.length := List.length_pos.mpr hxs
        omega
      · simp only [List.length_take]
        omega
    · exact chunksOf_mem_length n hn (xs.drop n) c h
termination_by xs.length
decreasing_by
  simp only [List.length_drop]
  have hx : 0 < xs.length := List.length_pos.mpr hxs
  omega

theorem chunksOf_full_of_not_last {α : Type} (n : ℕ) (hn : n ≠ 0) (xs : List α) :
    ∀ i c, (chunksOf n xs).get? i = some c →
      c.length = n ∨ i = (chunksOf n xs).length - 1 := by
  by_cases hxs : xs = []
  · subst hxs
    rw [chunksOf_nil]
    intro i c hc
    simp at hc
  · rw [chunksOf_cons n xs hn hxs]
    intro i c hc
    match i with
    | 0 =>
      simp only [List.get?_cons_zero, Option.some_inj] at hc
      subst hc
      by_cases hrest : chunksOf n (xs.drop n) = []
      · right
        simp [hrest]
      · left
        have hdrop : xs.drop n ≠ [] := by
          intro hd
          rw [hd, chunksOf_nil] at hrest
          exact hrest rfl
        have hlen : n < xs.length := by
          by_contra hle
          push_neg at hle
          exact hdrop (List.drop_eq_nil_of_le hle)
        simp only [List.length_take]
        omega
    | Nat.succ j =>
      simp only [List.get?_cons_succ] at hc
      have hj : j < (chunksOf n (xs.drop n)).length := by
        by_contra hge
        push_neg at hge
        rw [List.get?_eq_none.mpr hge] at hc
        exact Option.noConfusion hc
      rcases chunksOf_full_of_not_last n hn (xs.drop n) j c hc with h | h
      · left
        exact h
      · right
        simp only [List.length_cons]
        omega
termination_by xs.length
decreasing_by
  simp only [List.length_drop]
  have hx : 0 < xs.length := List.length_pos.mpr hxs
  omega

theorem chunksOf_getLast {α : Type} (n : ℕ) (hn : n ≠ 0) (xs : List α) :
    ∀ c, (chunksOf n xs).getLast? = some c →
      c = xs.drop (n * ((chunksOf n xs).length - 1)) := by
  by_cases hxs : xs = []
  · subst hxs
    rw [chunksOf_nil]
    intro c hc
    simp at hc
  · rw [chunksOf_cons n xs hn hxs]
    intro c hc
    by_cases hrest : chunksOf n (xs.drop n) = []
    · rw [hrest] at hc ⊢
      simp only [List.getLast?_singleton, Option.some_inj] at hc
      subst hc
      have hdrop : xs.drop n = [] := by
        by_contra hd
        rw [chunksOf_cons n (xs.drop n) hn hd] at hrest
        exact List.noConfusion hrest
      have hle : xs.length ≤ n := by
        by_contra hgt
        push_neg at hgt
        have : (xs.drop n).length = xs.length - n := List.length_drop n xs
        rw [hdrop] at this
        simp at this
        omega
      simp only [List.length_singleton]
      rw [List.take_of_length_le hle]
      simp
    · have hlast : (List.take n xs :: chunksOf n (xs.drop n)).getLast? =
          (chunksOf n (xs.drop n)).getLast? := by
        rcases List.exists_cons_of_ne_nil hrest with ⟨r, rs, hr⟩
        rw [hr]
        rfl
      rw [hlast] at hc
      have := chunksOf_getLast n hn (xs.drop n) c hc
      rw [this, List.drop_drop]
      congr 1
      have hpos : 0 < (chunksOf n (xs.drop n)).length := List.length_pos.mpr hrest
      obtain ⟨k, hk⟩ : ∃ k, (chunksOf n (xs.drop n)).length = k + 1 :=
        ⟨(chunksOf n (xs.drop n)).length - 1, (Nat.succ_pred_eq_of_pos hpos).symm⟩
      simp only [List.length_cons, hk, Nat.add_sub_cancel, Nat.mul_succ]
      exact Nat.add_comm _ _
termination_by xs.length
decreasing_by
  simp only [List.length_drop]
  have hx : 0 < xs.length := List.length_pos.mpr hxs
  omega

/-!
## AudioResampler (`resample_audio` in client_sample.py)

    def resample_audio(audio_data, original_sample_rate, target_sample_rate):
        number_of_samples = round(len(audio_data) * float(target_sample_rate) / original_sample_rate)
        resampled_audio = resample(audio_data, number_of_samples)
        return resampled_audio.astype(np.int16)
-/

/-- Python exceptions that the resampling pipeline can raise.
`invalidAudioFormat` is the error NAMED BY THE SPEC ("fails with
InvalidAudioFormat"); it is included only so that its absence is
expressible — no code path in the repository constructs it. -/
inductive PyError : Type
| zeroDivisionError
| valueError
| invalidAudioFormat
deriving DecidableEq

/-- numpy `.astype(np.int16)`: conversion to 16-bit signed integer,
modelled as the standard modular wrap into `[-32768, 32767]`. -/
def astypeInt16 (v : ℤ) : ℤ := ((v + 32768) % 65536) - 32768

theorem astypeInt16_range (v : ℤ) : -32768 ≤ astypeInt16 v ∧ astypeInt16 v < 32768 := by
  unfold astypeInt16
  have h1 : 0 ≤ (v + 32768) % 65536 := Int.emod_nonneg _ (by norm_num)
  have h2 : (v + 32768) % 65536 < 65536 := Int.emod_lt_of_pos _ (by norm_num)
  omega

/-- Modelled from the spec: `scipy.signal.resample` is an external library
(not part of this repository). Per its documented contract it is a
deterministic pure function returning exactly `num` samples; its
band-limited FFT interpolation values are floating-point and are not
modelled — sample values here are nearest-sample picks, which the claims
never inspect. -/
def scipy_resample (x : List ℤ) (num : ℕ) : List ℤ :=
  (List.range num).map fun i => x.getD (i * x.length / num) 0

theorem scipy_resample_length (x : List ℤ) (num : ℕ) :
    (scipy_resample x num).length = num := by
  unfold scipy_resample
  simp

/-- `resample_audio` from client_sample.py. `original_sample_rate = 0`
raises `ZeroDivisionError` at the division; a negative requested sample
count makes scipy/numpy raise `ValueError` (negative array dimension);
otherwise scipy returns `number_of_samples` samples, coerced to int16. -/
def resample_audio (audio_data : List ℤ) (original_sample_rate target_sample_rate : ℤ) :
    Except PyError (List ℤ) :=
  if original_sample_rate = 0 then .error .zeroDivisionError
  else
    let number_of_samples : ℤ :=
      pythonRound ((audio_data.length : ℚ) * (target_sample_rate : ℚ) / (original_sample_rate : ℚ))
    if number_of_samples < 0 then .error .valueError
    else .ok ((scipy_resample audio_data number_of_samples.toNat).map astypeInt16)

/-!
## Outbound traces (client_sample.py `run`/`send_audio`,
low_level_sample_local.py `with_azure_openai`/`stream_audio`)
-/

/-- An outbound protocol message. `audioAppend` carries the PCM payload
bytes together with the sample rate at which those bytes were produced
(a provenance annotation taken from the capture/resample configuration
in the code; the wire message itself carries only base64 bytes). -/
inductive OutMsg : Type
| sessionUpdate (turn_detection : String) (transcription_model : String)
| audioAppend (payload : List ℕ) (rate : ℤ)
| commitAudio
| generateResponse
deriving DecidableEq

/-- `sample_rate = 16000` in client_sample.py `send_audio`. -/
def sample_rate : ℤ := 16000

/-- `bytes_per_chunk = int(16000 * (100 / 1000) * 2) = 3200` in
client_sample.py `send_audio`. -/
def bytes_per_chunk : ℕ := 3200

/-- The chunking loop `for i in range(0, len(audio_bytes), bytes_per_chunk)`
of client_sample.py `send_audio` (file path). -/
def send_audio_chunks (audio_bytes : List ℕ) : List (List ℕ) :=
  chunksOf bytes_per_chunk audio_bytes

/-- numpy `.tobytes()` on an int16 array: 16-bit signed little-endian
encoding of each sample, two bytes per sample. -/
def int16LE (v : ℤ) : List ℕ :=
  [((v % 65536).toNat) % 256, ((v % 65536).toNat) / 256]

def tobytes (xs : List ℤ) : List ℕ := (xs.map int16LE).flatten

/-- client_sample.py `send_audio`, mic branch: while the recording flag is
set, each `stream.read` chunk (captured by pyaudio at `sample_rate`) is
sent as an audio append; when the flag clears, `commit_audio` then
`generate_response` are sent and the loop breaks. `micChunks` are the
reads completed before the flag cleared. -/
def micSendTrace (micChunks : List (List ℕ)) : List OutMsg :=
  micChunks.map (fun c => OutMsg.audioAppend c sample_rate) ++
    [OutMsg.commitAudio, OutMsg.generateResponse]

/-- client_sample.py `send_audio`, file branch: soundfile reads int16
samples at `original_sample_rate`; if that differs from `sample_rate` the
data is resampled to `sample_rate`. (sf.read always reports a positive
rate, so the error branch of `resample_audio` is unreachable here.) -/
def fileAudioPrep (samples : List ℤ) (original_sample_rate : ℤ) : List ℤ × ℤ :=
  if original_sample_rate ≠ sample_rate then
    (match resample_audio samples original_sample_rate sample_rate with
     | .ok y => y
     | .error _ => [], sample_rate)
  else (samples, original_sample_rate)

def fileSendTrace (samples : List ℤ) (original_sample_rate : ℤ) : List OutMsg :=
  (send_audio_chunks (tobytes (fileAudioPrep samples original_sample_rate).1)).map
    (fun c => OutMsg.audioAppend c (fileAudioPrep samples original_sample_rate).2)

/-- client_sample.py `run`: `await client.configure(turn_detection=ServerVAD(),
input_audio_transcription=InputAudioTranscription(model="whisper-1"))`
completes before `asyncio.gather(send_audio(...), receive_messages(...))`
starts, and `receive_messages` sends nothing, so the outbound trace is the
configuration message followed by `send_audio`'s sends. -/
def clientRunTrace (use_mic : Bool) (micChunks : List (List ℕ))
    (samples : List ℤ) (original_sample_rate : ℤ) : List OutMsg :=
  OutMsg.sessionUpdate "server_vad" "whisper-1" ::
    (if use_mic then micSendTrace micChunks else fileSendTrace samples original_sample_rate)

/-- `RATE = 24000` in low_level_sample_local.py `record_audio`: pyaudio
captures at 24 kHz. -/
def local_capture_rate : ℤ := 24000

/-- low_level_sample_local.py `stream_audio`: each queued capture chunk is
base64-encoded and sent as an `InputAudioBufferAppendMessage`, with no
resampling; the payload is the captured 24 kHz PCM. -/
def localStreamTrace (chunks : List (List ℕ)) : List OutMsg :=
  chunks.map (fun c => OutMsg.audioAppend c local_capture_rate)

/-- low_level_sample_local.py `with_azure_openai`: `await client.send(
SessionUpdateMessage(...))` completes before `asyncio.gather(stream_audio,
receive_messages)` starts. -/
def localRunTrace (chunks : List (List ℕ)) : List OutMsg :=
  OutMsg.sessionUpdate "server_vad" "whisper-1" :: localStreamTrace chunks

/-!
## Inbound side: base64, item aggregation (client_sample.py `receive_item`),
and the low-level dispatcher (low_level_sample_local.py `receive_messages`)
-/

/-- Value of one character of the standard base64 alphabet. -/
def b64CharVal (c : Char) : Option ℕ :=
  if 'A' ≤ c ∧ c ≤ 'Z' then some (c.toNat - 65)
  else if 'a' ≤ c ∧ c ≤ 'z' then some (c.toNat - 97 + 26)
  else if '0' ≤ c ∧ c ≤ '9' then some (c.toNat - 48 + 52)
  else if c = '+' then some 62
  else if c = '/' then some 63
  else none

/-- Reassemble one group of up to four 6-bit values into bytes. -/
def b64Group (g : List ℕ) : List ℕ :=
  match g with
  | [a, b, c, d] => [a * 4 + b / 16, (b % 16) * 16 + c / 4, (c % 4) * 64 + d]
  | [a, b, c] => [a * 4 + b / 16, (b % 16) * 16 + c / 4]
  | [a, b] => [a * 4 + b / 16]
  | _ => []

/-- Python `base64.b64decode`, modelled on the standard alphabet
(padding characters are skipped). -/
def b64decode (s : String) : List ℕ :=
  ((chunksOf 4 (s.toList.filterMap b64CharVal)).map b64Group).flatten

/-- One chunk yielded by `async for chunk in item` in client_sample.py
`receive_item`: a content-type tag and the payload string. -/
structure RTChunk : Type where
  type : String
  data : String
deriving DecidableEq

/-- The four per-item accumulators of client_sample.py `receive_item`
(`audio_transcript`, `audio_data`, `text_data`, `arguments`), each `None`
until the first chunk of its channel arrives. -/
structure ItemAcc : Type where
  audio_transcript : Option String
  audio_data : Option (List ℕ)
  text_data : Option String
  arguments : Option String
deriving DecidableEq

def initAcc : ItemAcc := ⟨none, none, none, none⟩

/-- The body of the `async for chunk in item` loop in `receive_item`:
appends the chunk payload to the matching accumulator (base64-decoding
audio); a chunk whose type matches no branch leaves the state unchanged. -/
def receive_item_step (acc : ItemAcc) (c : RTChunk) : ItemAcc :=
  if c.type = "audio_transcript" then
    { acc with audio_transcript := some ((acc.audio_transcript.getD "") ++ c.data) }
  else if c.type = "audio" then
    { acc with audio_data := some ((acc.audio_data.getD []) ++ b64decode c.data) }
  else if c.type = "tool_call_arguments" then
    { acc with arguments := some ((acc.arguments.getD "") ++ c.data) }
  else if c.type = "text" then
    { acc with text_data := some ((acc.text_data.getD "") ++ c.data) }
  else acc

/-- A completed artifact flushed after the loop in `receive_item`. -/
inductive Artifact : Type
| text (s : String)
| audio (bs : List ℕ)
| transcript (s : String)
| toolArgs (s : String)
deriving DecidableEq

/-- client_sample.py `receive_item`: fold the loop body over the chunk
stream (the item's "done" event ends the iteration), then flush each
non-`None` accumulator exactly once, in the source's order
(text file, audio playback, transcript file, tool-arguments file). -/
def receive_item_artifacts (chunks : List RTChunk) : List Artifact :=
  (match (chunks.foldl receive_item_step initAcc).text_data with
   | some t => [Artifact.text t] | none => []) ++
  (match (chunks.foldl receive_item_step initAcc).audio_data with
   | some a => [Artifact.audio a] | none => []) ++
  (match (chunks.foldl receive_item_step initAcc).audio_transcript with
   | some t => [Artifact.transcript t] | none => []) ++
  (match (chunks.foldl receive_item_step initAcc).arguments with
   | some a => [Artifact.toolArgs a] | none => [])

/-- An inbound protocol message as far as the low-level dispatcher's state
is concerned: the `type` discriminant and the delta payload (base64 for
audio deltas). The many printed-only fields do not affect state. -/
structure InMsg : Type where
  type : String
  delta : String
deriving DecidableEq

/-- The discriminant tags enumerated by the `match message.type` statement
of `receive_messages` (identical in both low-level samples). -/
def knownTypes : List String :=
  ["session.created", "error",
   "input_audio_buffer.committed", "input_audio_buffer.cleared",
   "input_audio_buffer.speech_started", "input_audio_buffer.speech_stopped",
   "conversation.item.created", "conversation.item.truncated",
   "conversation.item.deleted",
   "conversation.item.input_audio_transcription.completed",
   "conversation.item.input_audio_transcription.failed",
   "response.created", "response.done",
   "response.output_item.added", "response.output_item.done",
   "response.content_part.added", "response.content_part.done",
   "response.text.delta", "response.text.done",
   "response.audio_transcript.delta", "response.audio_transcript.done",
   "response.audio.delta", "response.audio.done",
   "response.function_call_arguments.delta",
   "response.function_call_arguments.done",
   "rate_limits.updated"]

/-- Result of dispatching one message in low_level_sample_local.py
`receive_messages`: the `audio_buffer` accumulator after the arm runs, and
whether the wildcard `case _` (catch-all "Unknown Message") arm ran. The
function is total: no arm raises. -/
structure StepResult : Type where
  buffer : List ℕ
  unknownHandled : Bool
deriving DecidableEq

/-- The `match message.type` dispatch of low_level_sample_local.py
`receive_messages`, arm for arm in source order. Only two arms touch
state: `response.audio.delta` appends the base64-decoded delta to
`audio_buffer`, and `response.audio.done` plays and resets the buffer;
every other known arm only prints. The wildcard arm prints
"Unknown Message" and continues. -/
def local_receive_step (audio_buffer : List ℕ) (m : InMsg) : StepResult :=
  if m.type = "session.created" then ⟨audio_buffer, false⟩
  else if m.type = "error" then ⟨audio_buffer, false⟩
  else if m.type = "input_audio_buffer.committed" then ⟨audio_buffer, false⟩
  else if m.type = "input_audio_buffer.cleared" then ⟨audio_buffer, false⟩
  else if m.type = "input_audio_buffer.speech_started" then ⟨audio_buffer, false⟩
  else if m.type = "input_audio_buffer.speech_stopped" then ⟨audio_buffer, false⟩
  else if m.type = "conversation.item.created" then ⟨audio_buffer, false⟩
  else if m.type = "conversation.item.truncated" then ⟨audio_buffer, false⟩
  else if m.type = "conversation.item.deleted" then ⟨audio_buffer, false⟩
  else if m.type = "conversation.item.input_audio_transcription.completed" then
    ⟨audio_buffer, false⟩
  else if m.type = "conversation.item.input_audio_transcription.failed" then
    ⟨audio_buffer, false⟩
  else if m.type = "response.created" then ⟨audio_buffer, false⟩
  else if m.type = "response.done" then ⟨audio_buffer, false⟩
  else if m.type = "response.output_item.added" then ⟨audio_buffer, false⟩
  else if m.type = "response.output_item.done" then ⟨audio_buffer, false⟩
  else if m.type = "response.content_part.added" then ⟨audio_buffer, false⟩
  else if m.type = "response.content_part.done" then ⟨audio_buffer, false⟩
  else if m.type = "response.text.delta" then ⟨audio_buffer, false⟩
  else if m.type = "response.text.done" then ⟨audio_buffer, false⟩
  else if m.type = "response.audio_transcript.delta" then ⟨audio_buffer, false⟩
  else if m.type = "response.audio_transcript.done" then ⟨audio_buffer, false⟩
  else if m.type = "response.audio.delta" then
    ⟨audio_buffer ++ b64decode m.delta, false⟩
  else if m.type = "response.audio.done" then ⟨[], false⟩
  else if m.type = "response.function_call_arguments.delta" then ⟨audio_buffer, false⟩
  else if m.type = "response.function_call_arguments.done" then ⟨audio_buffer, false⟩
  else if m.type = "rate_limits.updated" then ⟨audio_buffer, false⟩
  else ⟨audio_buffer, true⟩

/-- In `low_level_sample copy.py` `receive_messages` the only `break` is in
the `response.done` arm; every other arm, the wildcard included, falls
through to the next loop iteration. -/
def copy_receive_breaks (m : InMsg) : Bool :=
  m.type = "response.done"

/-!
## Environment lookup (`get_env_var`, identical in all three samples)
-/

inductive PyExn : Type
| osError (msg : String)
deriving DecidableEq

/-- `get_env_var`: `os.environ.get` then `if not value: raise OSError(...)`.
Python `not value` is true exactly for `None` and the empty string. -/
def get_env_var (environ : String → Option String) (var_name : String) :
    Except PyExn String :=
  match environ var_name with
  | none =>
    .error (.osError ("Environment variable " ++ var_name ++ " is not set or is empty."))
  | some value =>
    if value = "" then
      .error (.osError ("Environment variable " ++ var_name ++ " is not set or is empty."))
    else .ok value

/-!
## Claim theorems
-/

/-- C3: for every PCM byte stream, concatenating in order the frames
produced by the chunking loop of `send_audio` reproduces the original byte
stream exactly; every frame except possibly the last has the fixed chunk
size `bytes_per_chunk`, the last frame is exactly the remaining suffix of
the stream, and no byte is dropped, duplicated or reordered (the
concatenation equality). -/
theorem chunker_roundtrip (audio_bytes : List ℕ) :
    (send_audio_chunks audio_bytes).flatten = audio_bytes ∧
    (∀ i c, (send_audio_chunks audio_bytes).get? i = some c →
      c.length = bytes_per_chunk ∨ i = (send_audio_chunks audio_bytes).length - 1) ∧
    (∀ c, (send_audio_chunks audio_bytes).getLast? = some c →
      c = audio_bytes.drop (bytes_per_chunk * ((send_audio_chunks audio_bytes).length - 1))) ∧
    (∀ c ∈ send_audio_chunks audio_bytes, 0 < c.length ∧ c.length ≤ bytes_per_chunk) := by
  have hn : bytes_per_chunk ≠ 0 := by decide
  exact ⟨chunksOf_join _ hn _, chunksOf_full_of_not_last _ hn _,
    chunksOf_getLast _ hn _, chunksOf_mem_length _ hn _⟩

theorem chunker_roundtrip_witness :
    (send_audio_chunks [0, 1, 2]).flatten = [0, 1, 2] :=
  (chunker_roundtrip [0, 1, 2]).1

/-- C4: for positive native and target rates, `resample_audio` succeeds and
returns exactly `round(len × target/native)` samples, where `round` is
Python's builtin round (half to even, idealized over exact rationals), and
it is deterministic: identical inputs yield identical outputs (the
embedding is a pure function of its three arguments). -/
theorem resample_audio_length (audio_data : List ℤ) (orig target : ℤ)
    (horig : 0 < orig) (htarget : 0 < target) :
    ∃ y, resample_audio audio_data orig target = .ok y ∧
      (y.length : ℤ) =
        pythonRound ((audio_data.length : ℚ) * (target : ℚ) / (orig : ℚ)) ∧
      ∀ audio2 orig2 target2, audio2 = audio_data → orig2 = orig → target2 = target →
        resample_audio audio2 orig2 target2 = resample_audio audio_data orig target := by
  have hne : orig ≠ 0 := horig.ne'
  have h1 : (0 : ℚ) ≤ (audio_data.length : ℚ) := Nat.cast_nonneg _
  have h2 : (0 : ℚ) < (target : ℚ) := by exact_mod_cast htarget
  have h3 : (0 : ℚ) < (orig : ℚ) := by exact_mod_cast horig
  have hq : 0 ≤ (audio_data.length : ℚ) * (target : ℚ) / (orig : ℚ) :=
    div_nonneg (mul_nonneg h1 h2.le) h3.le
  have hr := pythonRound_nonneg _ hq
  refine ⟨(scipy_resample audio_data
      (pythonRound ((audio_data.length : ℚ) * (target : ℚ) / (orig : ℚ))).toNat).map
        astypeInt16, ?_, ?_, ?_⟩
  · simp only [resample_audio]
    rw [if_neg hne, if_neg (not_lt.mpr hr)]
  · simp only [List.length_map, scipy_resample_length]
    exact Int.toNat_of_nonneg hr
  · intro audio2 orig2 target2 ha ho ht
    rw [ha, ho, ht]

theorem resample_audio_length_witness :
    ∃ y, resample_audio [1] 2 3 = .ok y ∧
      (y.length : ℤ) =
        pythonRound ((([1] : List ℤ).length : ℚ) * ((3 : ℤ) : ℚ) / ((2 : ℤ) : ℚ)) ∧
      ∀ audio2 orig2 target2, audio2 = [1] → orig2 = 2 → target2 = 3 →
        resample_audio audio2 orig2 target2 = resample_audio [1] 2 3 :=
  resample_audio_length [1] 2 3 (by decide) (by decide)

/-- C5 counterexample: the claim says a non-positive native rate fails with
`InvalidAudioFormat`; in the code `resample_audio` performs no validation
and a native rate of 0 raises `ZeroDivisionError` at
`float(target_sample_rate) / original_sample_rate`. No code path in the
repository constructs an InvalidAudioFormat error. -/
theorem resample_invalid_format_counterexample :
    resample_audio [1, 2, 3] 0 16000 = .error .zeroDivisionError ∧
      PyError.zeroDivisionError ≠ PyError.invalidAudioFormat :=
  ⟨rfl, by decide⟩

/-- C5 amended: `resample_audio` performs no rate validation and never
fails with `InvalidAudioFormat`; a native rate of 0 raises
`ZeroDivisionError`; a zero-length input with positive rates yields the
empty sequence (requested sample count 0). -/
theorem resample_error_behavior :
    (∀ (audio_data : List ℤ) (target : ℤ),
      resample_audio audio_data 0 target = .error .zeroDivisionError) ∧
    (∀ orig target : ℤ, 0 < orig → 0 < target →
      resample_audio [] orig target = .ok []) ∧
    (∀ (audio_data : List ℤ) (orig target : ℤ),
      resample_audio audio_data orig target ≠ .error .invalidAudioFormat) := by
  refine ⟨fun audio_data target => by simp [resample_audio], ?_, ?_⟩
  · intro orig target horig htarget
    simp only [resample_audio, List.length_nil, Nat.cast_zero, zero_mul, zero_div,
      pythonRound_zero]
    rw [if_neg horig.ne']
    norm_num [scipy_resample]
  · intro audio_data orig target
    simp only [resample_audio]
    split_ifs <;> simp

theorem resample_error_behavior_witness :
    resample_audio [] 16000 24000 = .ok [] :=
  resample_error_behavior.2.1 16000 24000 (by decide) (by decide)

/-- C10: for every input and rates, each sample of a successful
`resample_audio` result lies in the signed 16-bit range and is a fixed
point of the int16 coercion: the interpolated result is passed through
`.astype(np.int16)` before being returned. -/
theorem resample_audio_int16 (audio_data : List ℤ) (orig target : ℤ) (y : List ℤ)
    (h : resample_audio audio_data orig target = .ok y) :
    ∀ v ∈ y, -32768 ≤ v ∧ v < 32768 ∧ astypeInt16 v = v := by
  have hy : ∃ num, y = (scipy_resample audio_data num).map astypeInt16 := by
    simp only [resample_audio] at h
    split_ifs at h <;> first
      | exact Except.noConfusion h
      | exact ⟨_, (Except.ok.injEq _ _ |>.mp h).symm⟩
  obtain ⟨num, rfl⟩ := hy
  intro v hv
  obtain ⟨u, _, rfl⟩ := List.mem_map.mp hv
  obtain ⟨hlo, hhi⟩ := astypeInt16_range u
  refine ⟨hlo, hhi, ?_⟩
  unfold astypeInt16
  have : (astypeInt16 u + 32768) % 65536 = astypeInt16 u + 32768 :=
    Int.emod_eq_of_lt (by omega) (by omega)
  unfold astypeInt16 at this
  omega

theorem resample_audio_int16_witness :
    -32768 ≤ (-31072 : ℤ) ∧ (-31072 : ℤ) < 32768 ∧ astypeInt16 (-31072) = -31072 :=
  resample_audio_int16 [100000] 1 1 [-31072]
    (by
      norm_num [resample_audio, pythonRound, scipy_resample, astypeInt16]
      rfl)
    (-31072) (by decide)

/-- C9: `get_env_var` fails with OSError exactly when the environment
variable is unset (`None`) or bound to the empty string (Python `not value`
is true precisely for those), and otherwise returns the value unchanged. -/
theorem get_env_var_spec (environ : String → Option String) (var_name : String) :
    ((∃ e, get_env_var environ var_name = .error e) ↔
      environ var_name = none ∨ environ var_name = some "") ∧
    (∀ v, environ var_name = some v → v ≠ "" →
      get_env_var environ var_name = .ok v) := by
  constructor
  · constructor
    · rintro ⟨e, he⟩
      cases henv : environ var_name with
      | none => exact Or.inl rfl
      | some v =>
        by_cases hv : v = ""
        · exact Or.inr (by rw [hv])
        · simp only [get_env_var, henv, if_neg hv] at he
          exact Except.noConfusion he
    · intro h
      rcases h with h | h <;>
        exact ⟨.osError ("Environment variable " ++ var_name ++ " is not set or is empty."),
          by simp [get_env_var, h]⟩
  · intro v hv hne
    simp [get_env_var, hv, hne]

theorem get_env_var_witness :
    get_env_var (fun _ => some "value") "AZURE_OPENAI_ENDPOINT" = .ok "value" ∧
    (∃ e, get_env_var (fun _ => none) "AZURE_OPENAI_API_KEY" = .error e) :=
  ⟨(get_env_var_spec (fun _ => some "value") "AZURE_OPENAI_ENDPOINT").2 "value" rfl
      (by decide),
   (get_env_var_spec (fun _ => none) "AZURE_OPENAI_API_KEY").1.mpr (Or.inl rfl)⟩

/-- Shared helper: in a trace that begins with the configuration message,
every audio append is strictly preceded by a configuration message. -/
theorem cons_config_audio_after (td tm : String) (rest : List OutMsg) :
    ∀ k p r, (OutMsg.sessionUpdate td tm :: rest).get? k = some (.audioAppend p r) →
      ∃ j, j < k ∧ ∃ td2 tm2,
        (OutMsg.sessionUpdate td tm :: rest).get? j = some (.sessionUpdate td2 tm2) := by
  intro k p r h
  match k with
  | 0 => simp at h
  | Nat.succ j => exact ⟨0, Nat.succ_pos j, td, tm, rfl⟩

/-- C1: in both `client_sample.run` (mic or file mode) and
`low_level_sample_local.with_azure_openai`, the session-configuration
message occupies a strictly earlier position in the outbound trace than
every audio-append message: configuration is awaited before the concurrent
send loop starts, so no audio frame precedes it on the wire. -/
theorem config_before_first_audio
    (use_mic : Bool) (micChunks : List (List ℕ)) (samples : List ℤ) (orig : ℤ)
    (localChunks : List (List ℕ)) :
    (∀ k p r, (clientRunTrace use_mic micChunks samples orig).get? k =
        some (.audioAppend p r) →
      ∃ j, j < k ∧ ∃ td tm, (clientRunTrace use_mic micChunks samples orig).get? j =
        some (.sessionUpdate td tm)) ∧
    (∀ k p r, (localRunTrace localChunks).get? k = some (.audioAppend p r) →
      ∃ j, j < k ∧ ∃ td tm, (localRunTrace localChunks).get? j =
        some (.sessionUpdate td tm)) :=
  ⟨cons_config_audio_after _ _ _, cons_config_audio_after _ _ _⟩

theorem config_before_first_audio_witness :
    ∃ j, j < 1 ∧ ∃ td tm,
      (clientRunTrace true [[0]] [] 0).get? j = some (.sessionUpdate td tm) :=
  (config_before_first_audio true [[0]] [] 0 []).1 1 [0] 16000 rfl

/-- C2 counterexample: `client_sample.run` configures automatic
(server-VAD) turn detection, yet the mic path of `send_audio` sends
`commit_audio` and `generate_response` when the recording flag clears —
here a run with zero mic reads whose trace is
[sessionUpdate server_vad, commitAudio, generateResponse]. -/
theorem auto_mode_commit_counterexample :
    (clientRunTrace true [] [] 16000).get? 0 =
      some (.sessionUpdate "server_vad" "whisper-1") ∧
    OutMsg.commitAudio ∈ clientRunTrace true [] [] 16000 ∧
    OutMsg.generateResponse ∈ clientRunTrace true [] [] 16000 :=
  ⟨rfl, by decide, by decide⟩

/-- C2 amended: the samples always configure automatic (server-VAD) turn
detection. In the mic path the coordinator nevertheless sends a commit
message followed immediately by a generate-response request once the
capture loop ends; in the file path neither commit nor generate-response
is ever sent. -/
theorem commit_generate_policy :
    (∀ (micChunks : List (List ℕ)) (samples : List ℤ) (orig : ℤ), ∃ pre,
      clientRunTrace true micChunks samples orig =
        OutMsg.sessionUpdate "server_vad" "whisper-1" ::
          (pre ++ [OutMsg.commitAudio, OutMsg.generateResponse]) ∧
      ∀ m ∈ pre, ∃ p r, m = OutMsg.audioAppend p r) ∧
    (∀ (micChunks : List (List ℕ)) (samples : List ℤ) (orig : ℤ),
      OutMsg.commitAudio ∉ clientRunTrace false micChunks samples orig ∧
      OutMsg.generateResponse ∉ clientRunTrace false micChunks samples orig) := by
  constructor
  · intro micChunks samples orig
    refine ⟨micChunks.map (fun c => OutMsg.audioAppend c sample_rate), rfl, ?_⟩
    intro m hm
    obtain ⟨c, _, rfl⟩ := List.mem_map.mp hm
    exact ⟨c, sample_rate, rfl⟩
  · intro micChunks samples orig
    constructor <;>
      simp [clientRunTrace, fileSendTrace, List.mem_map]

theorem commit_generate_policy_witness :
    ∃ pre, clientRunTrace true [] [] 0 =
      OutMsg.sessionUpdate "server_vad" "whisper-1" ::
        (pre ++ [OutMsg.commitAudio, OutMsg.generateResponse]) ∧
      ∀ m ∈ pre, ∃ p r, m = OutMsg.audioAppend p r :=
  commit_generate_policy.1 [] [] 0

/-- C6 counterexample: `low_level_sample_local` captures at 24 kHz
(`RATE = 24000` in `record_audio`) and `stream_audio` sends the chunks
without resampling, so an audio-append message carries 24 kHz PCM, not
16 kHz. -/
theorem audio_rate_counterexample :
    OutMsg.audioAppend [0] 24000 ∈ localRunTrace [[0]] ∧ (24000 : ℤ) ≠ 16000 :=
  ⟨by decide, by decide⟩

/-- C6 amended: in `client_sample` every audio-append carries 16 kHz PCM
(mic capture is opened at 16 kHz; file audio at any other native rate is
resampled to 16 kHz before transmission), while in
`low_level_sample_local` every audio-append carries the raw 24 kHz capture
with no resampling. -/
theorem client_audio_rate_16k
    (use_mic : Bool) (micChunks : List (List ℕ)) (samples : List ℤ) (orig : ℤ)
    (localChunks : List (List ℕ)) :
    (∀ p r, OutMsg.audioAppend p r ∈ clientRunTrace use_mic micChunks samples orig →
      r = 16000) ∧
    (∀ p r, OutMsg.audioAppend p r ∈ localRunTrace localChunks → r = 24000) := by
  constructor
  · intro p r h
    rcases List.mem_cons.mp h with h | h
    · exact absurd h (by simp)
    · cases use_mic with
      | false =>
        simp only [if_neg Bool.false_ne_true, fileSendTrace] at h
        obtain ⟨c, _, hc⟩ := List.mem_map.mp h
        have hr : r = (fileAudioPrep samples orig).2 :=
          ((OutMsg.audioAppend.injEq _ _ _ _).mp hc.symm).2
        rw [hr]
        unfold fileAudioPrep
        split_ifs with hor
        · rfl
        · push_neg at hor
          rw [hor]
          rfl
      | true =>
        simp only [if_pos rfl, micSendTrace] at h
        rcases List.mem_append.mp h with h | h
        · obtain ⟨c, _, hc⟩ := List.mem_map.mp h
          exact ((OutMsg.audioAppend.injEq _ _ _ _).mp hc.symm).2
        · rcases List.mem_cons.mp h with h | h
          · exact absurd h (by simp)
          · rcases List.mem_cons.mp h with h | h
            · exact absurd h (by simp)
            · exact absurd h (List.not_mem_nil _)
  · intro p r h
    rcases List.mem_cons.mp h with h | h
    · exact absurd h (by simp)
    · obtain ⟨c, _, hc⟩ := List.mem_map.mp h
      exact ((OutMsg.audioAppend.injEq _ _ _ _).mp hc.symm).2

theorem client_audio_rate_16k_witness :
    (16000 : ℤ) = 16000 ∧ (24000 : ℤ) = 24000 :=
  ⟨(client_audio_rate_16k true [[5]] [] 0 [[5]]).1 [5] 16000 (by decide),
   (client_audio_rate_16k true [[5]] [] 0 [[5]]).2 [5] 24000 (by decide)⟩

/-- C7 counterexample: with zero text deltas (the done event arrives with
no preceding delta), `receive_item` leaves `text_data = None` and writes
no text artifact at all — not one artifact holding the empty
concatenation. -/
theorem text_aggregation_counterexample :
    receive_item_artifacts (([] : List String).map fun d => RTChunk.mk "text" d) = [] ∧
    ([] : List Artifact) ≠ [Artifact.text ""] :=
  ⟨rfl, by decide⟩

/-- Helper: folding the loop body over text chunks only concatenates onto
the text accumulator, in arrival order, and touches nothing else. -/
theorem foldl_text_steps (ds : List String) (s : String) :
    List.foldl receive_item_step ⟨none, none, some s, none⟩
        (ds.map fun d => RTChunk.mk "text" d) =
      ⟨none, none, some (ds.foldl (· ++ ·) s), none⟩ := by
  induction ds generalizing s with
  | nil => rfl
  | cons d ds ih =>
    simp only [List.map_cons, List.foldl_cons]
    exact ih (s ++ d)

/-- C7 amended: for every sequence of N ≥ 1 text-delta chunks (the
text-done event then ends the iteration), `receive_item` emits exactly one
completed text artifact equal to the concatenation of the N delta payloads
in arrival order; with N = 0 no text artifact is emitted. -/
theorem text_aggregation (deltas : List String) (hne : deltas ≠ []) :
    receive_item_artifacts (deltas.map fun d => RTChunk.mk "text" d) =
      [Artifact.text (deltas.foldl (· ++ ·) "")] := by
  obtain ⟨d, ds, rfl⟩ := List.exists_cons_of_ne_nil hne
  unfold receive_item_artifacts
  simp only [List.map_cons, List.foldl_cons]
  rw [show receive_item_step initAcc (RTChunk.mk "text" d) =
    (⟨none, none, some ("" ++ d), none⟩ : ItemAcc) from rfl]
  rw [foldl_text_steps ds ("" ++ d)]
  rfl

theorem text_aggregation_witness :
    receive_item_artifacts ((["He", "llo"] : List String).map fun d => RTChunk.mk "text" d) =
      [Artifact.text ((["He", "llo"] : List String).foldl (· ++ ·) "")] :=
  text_aggregation ["He", "llo"] (by decide)

/-- C8: a message whose type tag is not in the fixed table of known event
kinds runs the wildcard catch-all arm: the dispatch raises nothing (the
step is a total function), the `audio_buffer` accumulator is unchanged,
the `low_level_sample copy` variant does not break its receive loop, and
an unrecognized chunk type in `receive_item` leaves every per-item
accumulator unchanged. -/
theorem unknown_event_dispatch (audio_buffer : List ℕ) (m : InMsg)
    (hm : m.type ∉ knownTypes) (acc : ItemAcc) (c : RTChunk)
    (hc : c.type ∉ ["audio_transcript", "audio", "tool_call_arguments", "text"]) :
    local_receive_step audio_buffer m = ⟨audio_buffer, true⟩ ∧
    copy_receive_breaks m = false ∧
    receive_item_step acc c = acc := by
  simp only [knownTypes, List.mem_cons, List.not_mem_nil, or_false, not_or] at hm
  obtain ⟨h1, h2, h3, h4, h5, h6, h7, h8, h9, h10, h11, h12, h13, h14, h15, h16, h17,
    h18, h19, h20, h21, h22, h23, h24, h25, h26⟩ := hm
  simp only [List.mem_cons, List.not_mem_nil, or_false, not_or] at hc
  obtain ⟨g1, g2, g3, g4⟩ := hc
  refine ⟨?_, ?_, ?_⟩
  · unfold local_receive_step
    rw [if_neg h1, if_neg h2, if_neg h3, if_neg h4, if_neg h5, if_neg h6, if_neg h7,
      if_neg h8, if_neg h9, if_neg h10, if_neg h11, if_neg h12, if_neg h13, if_neg h14,
      if_neg h15, if_neg h16, if_neg h17, if_neg h18, if_neg h19, if_neg h20, if_neg h21,
      if_neg h22, if_neg h23, if_neg h24, if_neg h25, if_neg h26]
  · unfold copy_receive_breaks
    simp [h13]
  · unfold receive_item_step
    rw [if_neg g1, if_neg g2, if_neg g3, if_neg g4]

theorem unknown_event_dispatch_witness :
    local_receive_step [7] ⟨"bogus.event", ""⟩ = ⟨[7], true⟩ ∧
    copy_receive_breaks ⟨"bogus.event", ""⟩ = false ∧
    receive_item_step initAcc ⟨"bogus.event", ""⟩ = initAcc :=
  unknown_event_dispatch [7] ⟨"bogus.event", ""⟩ (by decide) initAcc ⟨"bogus.event", ""⟩
    (by decide)

end AoaiRealtime
